import Mathlib

/-!
Shallow embedding of the gamification engine of the `group-7` learning-platform
backend (`backend/services/core_services.py`, `backend/models.py`,
`backend/utils/constants.py`).

Modelling conventions:
* SQLAlchemy entities become Lean structures; the session's view of the data
  (in-memory entities plus pending rows) is one explicit `DB` state record.
  `db.session.commit()` has no observable effect inside this view and the code
  contains no rollback call, so commits are modelled as the identity; Python
  exception propagation leaves all object mutations in place, which the
  embedding renders by returning the mutated state alongside the error.
* The integer columns `points`, `xp` are `nullable=False, default=0`, so they
  are plain `Int`s; Python's defensive `(user.points or 0)` is the identity on
  integers and is embedded as such.
* Dates are absolute day numbers (`Int`); `timedelta(days=1)` is `1`.
* The read-only SQL aggregates (counts of `UserProgress` rows with
  `completion_percent=100`, of fully-completed learning paths, and of created
  learning paths, each per user id) are state fields `completedProgress`,
  `completedPaths`, `createdPaths`, association lists from user id to count.
  This subsystem never writes those tables, so the counts are constants of a
  run.
* The recursion `award_points -> check_badges -> award_badge -> award_points`
  is unbounded in the source; it is embedded by structural recursion on a fuel
  parameter threaded only through `award_points`, with the helper functions
  taking the recursive call as an argument.  The exported `award_points` fixes
  a fuel large enough that the fuel-exhaustion branch is unreachable for the
  shipped configuration tables (any nested call is for the action
  `earn_badge`, which is absent from `POINTS_CONFIG` and therefore returns at
  once).
-/

namespace Gamification

/-- Model of the `User` entity (`backend/models.py`), restricted to the fields
the gamification services read or write. -/
structure User where
  id : Nat
  points : Int
  xp : Int
  streak_days : Int
  last_streak_date : Option Int
deriving DecidableEq, Repr

/-- Model of the `PointsLog` entity: an append-only ledger row. -/
structure PointsLog where
  user_id : Nat
  points_change : Int
  reason : String
deriving DecidableEq, Repr

/-- Model of the `Badge` catalog entity. -/
structure Badge where
  id : Nat
  key : String
  name : String
  description : String
deriving DecidableEq, Repr

/-- Model of the `UserBadge` junction entity (a badge award). -/
structure UserBadge where
  user_id : Nat
  badge_id : Nat
deriving DecidableEq, Repr

/-- Model of the `Leaderboard` entity: one denormalized entry per user. -/
structure Leaderboard where
  user_id : Nat
  total_points : Int
  rank : Option Int
deriving DecidableEq, Repr

/-- The session state seen by the services: the acting user entity, the user
table, the ledger, the badge catalog, the badge awards, the leaderboard table,
the per-user read-only aggregates, and the autoincrement counter used when a
`Badge` row is flushed. -/
structure DB where
  user : User
  users : List User
  pointsLog : List PointsLog
  badges : List Badge
  userBadges : List UserBadge
  leaderboard : List Leaderboard
  completedProgress : List (Nat × Nat)
  completedPaths : List (Nat × Nat)
  createdPaths : List (Nat × Nat)
  nextBadgeId : Nat
deriving DecidableEq, Repr

/-- The dictionary returned by `PointsService.award_points`. -/
structure AwardResult where
  points : Int
  xp : Int
  action : String
  badges_awarded : List String
deriving DecidableEq, Repr

/-- The dictionary returned by `PointsService.award_xp_only`. -/
structure XpResult where
  xp : Int
  action : String
deriving DecidableEq, Repr

/-- Python exceptions raised by the embedded code paths. -/
inductive Err where
  /-- `ValueError(f"Unknown action: {action}")` in `award_points`. -/
  | unknownAction (action : String)
  /-- `ValueError(f"Badge '{badge_key}' not defined in BADGE_RULES")`. -/
  | badgeNotDefined (badge_key : String)
  /-- `AttributeError` from dereferencing a `None` user object. -/
  | attributeErrorNoneUser
  /-- Fuel exhaustion of the embedding; unreachable at the exported fuel. -/
  | recursionLimit
deriving DecidableEq, Repr

/-- Point rewards per action (`backend/utils/constants.py`, `POINTS_CONFIG`). -/
def POINTS_CONFIG : List (String × Int) :=
  [("complete_module", 50),
   ("complete_quiz", 30),
   ("pass_quiz", 50),
   ("start_learning_path", 10),
   ("create_resource", 25),
   ("create_learning_path", 100),
   ("rate_resource", 5),
   ("create_post", 15),
   ("create_comment", 10),
   ("receive_rating_5_star", 20),
   ("resource_used_100_times", 100),
   ("daily_login", 5),
   ("complete_challenge", 200),
   ("participate_event", 50),
   ("win_leaderboard_weekly", 300)]

/-- XP rewards per action (`backend/utils/constants.py`, `XP_CONFIG`). -/
def XP_CONFIG : List (String × Int) :=
  [("complete_module", 100),
   ("pass_quiz", 150),
   ("create_resource", 50),
   ("create_learning_path", 200),
   ("complete_challenge", 500),
   ("daily_streak_7_days", 200),
   ("daily_streak_30_days", 500)]

/-- Badge metadata per badge key (`BADGE_RULES`): name and description. -/
def BADGE_RULES : List (String × String × String) :=
  [("first_module", "First Module Completed",
    "Awarded for completing your first module."),
   ("first_quiz", "First Quiz Completed",
    "Awarded for completing your first quiz."),
   ("first_learning_path", "First Learning Path Created",
    "Awarded for creating your first learning path."),
   ("first_login", "Welcome Aboard!",
    "Awarded on your first login."),
   ("quiz_master", "Quiz Master",
    "Awarded for completing 10 quizzes with perfect scores."),
   ("module_explorer", "Module Explorer",
    "Awarded for completing 5 different modules."),
   ("streak_30_days", "Monthly Master",
    "Awarded for maintaining a 30-day learning streak."),
   ("path_completer", "Pathfinder",
    "Awarded for completing your first learning path."),
   ("subject_master", "Subject Master",
    "Awarded for completing all modules in a subject category.")]

/-- The direct-trigger table local to `BadgeService.check_badges`. -/
def trigger_map : List (String × String) :=
  [("complete_module", "first_module"),
   ("complete_quiz", "first_quiz"),
   ("create_learning_path", "first_learning_path"),
   ("daily_login", "first_login")]

/-- Ledger reason: `f"{action}: {metadata}" if metadata else action`.  Python
truthiness also treats the empty string as absent metadata. -/
def reasonFor (action : String) (metadata : Option String) : String :=
  match metadata with
  | some m => if m = "" then action else action ++ ": " ++ m
  | none => action

/-- Count of `UserProgress` rows with `completion_percent=100` for a user id:
the aggregate behind both the module-explorer and the quiz-master milestone
(the source uses the same query for both). -/
def completedCount (s : DB) (uid : Nat) : Nat :=
  (s.completedProgress.lookup uid).getD 0

/-- Model of `BadgeService._get_completed_learning_paths(user)`: the number of
learning paths all of whose modules have a full-completion progress record for
this user.  Dereferences the user object (`user.id`). -/
def get_completed_learning_paths (s : DB) (u : User) : Nat :=
  (s.completedPaths.lookup u.id).getD 0

/-- Model of `BadgeService._has_completed_full_path(user)`. -/
def has_completed_full_path (s : DB) (u : User) : Bool :=
  decide (0 < get_completed_learning_paths s u)

/-- Model of `BadgeService.has_badge(user, badge_key)`: a `UserBadge` row of
the acting user joined to a `Badge` row with the given key exists. -/
def has_badge (s : DB) (badge_key : String) : Bool :=
  s.userBadges.any (fun ub =>
    ub.user_id == s.user.id &&
      s.badges.any (fun b => b.id == ub.badge_id && b.key == badge_key))

/-- Number of `UserBadge` rows of the acting user for a given badge key; used
to express the at-most-once invariant. -/
def countBadgeAwards (s : DB) (badge_key : String) : Nat :=
  (s.userBadges.filter (fun ub =>
    ub.user_id == s.user.id &&
      s.badges.any (fun b => b.id == ub.badge_id && b.key == badge_key))).length

/-- Descending-points order used by the leaderboard recompute
(`order_by(Leaderboard.total_points.desc())`). -/
def pointsGe (a b : Leaderboard) : Prop :=
  b.total_points ≤ a.total_points

instance : DecidableRel pointsGe := fun a b => Int.decLe b.total_points a.total_points

instance : IsTotal Leaderboard pointsGe :=
  ⟨fun a b => (Int.le_total b.total_points a.total_points).imp id id⟩

instance : IsTrans Leaderboard pointsGe :=
  ⟨fun _ _ _ h1 h2 => le_trans h2 h1⟩

/-- Rank assignment loop `for rank, entry in enumerate(entries, start=1)`. -/
def assignRanks : Nat → List Leaderboard → List Leaderboard
  | _, [] => []
  | r, e :: es => { e with rank := some (r : Int) } :: assignRanks (r + 1) es

/-- Model of `LeaderboardService.update_all_ranks`: load all entries ordered
by `total_points` descending, assign 1-based ranks, commit. -/
def update_all_ranks (s : DB) : DB :=
  { s with leaderboard := assignRanks 1 (List.insertionSort pointsGe s.leaderboard) }

/-- First leaderboard entry of a user id
(`Leaderboard.query.filter_by(user_id=...).first()`). -/
def findEntry (l : List Leaderboard) (uid : Nat) : Option Leaderboard :=
  l.find? (fun e => e.user_id == uid)

/-- Overwrite the `total_points` of the first entry of a user id. -/
def setEntryPoints : List Leaderboard → Nat → Int → List Leaderboard
  | [], _, _ => []
  | e :: es, uid, p =>
    if e.user_id == uid then { e with total_points := p } :: es
    else e :: setEntryPoints es uid p

/-- Model of `LeaderboardService.update_user_rank(user)`: ensure an entry for
the user exists (create with the user's current points if absent, overwrite
`total_points` otherwise), then recompute all ranks. -/
def update_user_rank (s : DB) : DB :=
  let lb :=
    match findEntry s.leaderboard s.user.id with
    | none => s.leaderboard ++ [{ user_id := s.user.id, total_points := s.user.points, rank := none }]
    | some _ => setEntryPoints s.leaderboard s.user.id s.user.points
  update_all_ranks { s with leaderboard := lb }

/-- Model of `LeaderboardService.get_user_rank(user_id)`: the entry's rank, or
`none` when either the entry or its rank is absent. -/
def get_user_rank (s : DB) (user_id : Nat) : Option Int :=
  match findEntry s.leaderboard user_id with
  | some e => e.rank
  | none => none

/-- Shorthand for the type of the recursive points-award call that the badge
service receives: `PointsService.award_points` itself. -/
def AwardCall : Type :=
  DB → String → Option String → Except Err AwardResult × DB

/-- Model of `BadgeService.award_badge(user, badge_key)`: look up the badge
rule (raising when undefined), lazily create the `Badge` catalog row (with a
flush that materializes its autoincrement id), add a `UserBadge` row, then
recursively call the points service for the `earn_badge` reward with the
ledger reason tagged with the badge key. -/
def award_badgeGo (recur : AwardCall) (s : DB) (badge_key : String) :
    Except Err String × DB :=
  match BADGE_RULES.lookup badge_key with
  | none => (.error (.badgeNotDefined badge_key), s)
  | some rule =>
    let bs :=
      match s.badges.find? (fun b => b.key == badge_key) with
      | some b => (b, s)
      | none =>
        let b : Badge :=
          { id := s.nextBadgeId, key := badge_key,
            name := rule.1, description := rule.2 }
        (b, { s with badges := s.badges ++ [b], nextBadgeId := s.nextBadgeId + 1 })
    let badge := bs.1
    let s := bs.2
    let s := { s with userBadges :=
      s.userBadges ++ [{ user_id := s.user.id, badge_id := badge.id }] }
    match recur s "earn_badge" (some ("Badge: " ++ badge_key)) with
    | (.error e, s') => (.error e, s')
    | (.ok _, s') => (.ok badge_key, s')

/-- One guarded milestone step of `BadgeService._check_milestone_badges`: on
the state reached so far, if the milestone condition holds, award the badge
and append its key; a raised exception aborts the remaining steps while
keeping the mutations performed so far. -/
def milestoneAward (recur : AwardCall) (badge_key : String) (cond : DB → Bool)
    (st : Except Err (List String) × DB) : Except Err (List String) × DB :=
  match st with
  | (.error e, s) => (.error e, s)
  | (.ok acc, s) =>
    if cond s then
      match award_badgeGo recur s badge_key with
      | (.error e, s') => (.error e, s')
      | (.ok _, s') => (.ok (acc ++ [badge_key]), s')
    else (.ok acc, s)

/-- Model of `BadgeService._check_milestone_badges(user)`: the five milestone
rules in source order.  `quiz_master` reuses the same full-completion progress
count as `module_explorer` (the source's conflation), and `subject_master` has
no `has_badge` guard. -/
def check_milestone_badgesGo (recur : AwardCall) (s : DB) :
    Except Err (List String) × DB :=
  let st : Except Err (List String) × DB := (.ok [], s)
  let st := milestoneAward recur "module_explorer"
    (fun s => decide (5 ≤ completedCount s s.user.id) && !has_badge s "module_explorer") st
  let st := milestoneAward recur "streak_30_days"
    (fun s => decide (30 ≤ s.user.streak_days) && !has_badge s "streak_30_days") st
  let st := milestoneAward recur "path_completer"
    (fun s => decide (1 ≤ get_completed_learning_paths s s.user) &&
      !has_badge s "path_completer") st
  let st := milestoneAward recur "quiz_master"
    (fun s => decide (10 ≤ completedCount s s.user.id) && !has_badge s "quiz_master") st
  let st := milestoneAward recur "subject_master"
    (fun s => has_completed_full_path s s.user) st
  st

/-- Model of `BadgeService.check_badges(user, action)`: the direct-trigger
rule followed by the milestone rules; returns the keys newly awarded. -/
def check_badgesGo (recur : AwardCall) (s : DB) (action : String) :
    Except Err (List String) × DB :=
  let st : Except Err (List String) × DB :=
    match trigger_map.lookup action with
    | some badge_key =>
      if has_badge s badge_key then (.ok [], s)
      else
        match award_badgeGo recur s badge_key with
        | (.error e, s') => (.error e, s')
        | (.ok _, s') => (.ok [badge_key], s')
    | none => (.ok [], s)
  match st with
  | (.error e, s') => (.error e, s')
  | (.ok acc, s') =>
    match check_milestone_badgesGo recur s' with
    | (.error e, s'') => (.error e, s'')
    | (.ok ms, s'') => (.ok (acc ++ ms), s'')

/-- The user-stat and ledger mutations of `award_points` performed before the
badge check: add the configured points, add the XP when positive, append the
ledger row with reason = action (or action: metadata). -/
def midState (s : DB) (action : String) (metadata : Option String) (points : Int) : DB :=
  let xp := (XP_CONFIG.lookup action).getD 0
  let u := s.user
  let u := { u with points := u.points + points }
  let u := if 0 < xp then { u with xp := u.xp + xp } else u
  let s1 := { s with user := u }
  { s1 with pointsLog := s1.pointsLog ++
      [{ user_id := u.id, points_change := points, reason := reasonFor action metadata }] }

/-- Fuel-indexed model of `PointsService.award_points(user, action, metadata)`:
reject unknown actions, perform the stat and ledger mutations (`midState`),
run the badge check, refresh the leaderboard, commit.  The nested badge-award
call recurses with one unit of fuel less. -/
def award_pointsF : Nat → DB → String → Option String → Except Err AwardResult × DB
  | 0, s, _, _ => (.error .recursionLimit, s)
  | fuel + 1, s, action, metadata =>
    match POINTS_CONFIG.lookup action with
    | none => (.error (.unknownAction action), s)
    | some points =>
      match check_badgesGo (award_pointsF fuel) (midState s action metadata points) action with
      | (.error e, s') => (.error e, s')
      | (.ok awarded, s') =>
        (.ok { points := points, xp := (XP_CONFIG.lookup action).getD 0,
               action := action, badges_awarded := awarded },
         update_user_rank s')

/-- Fuel used by the exported entry points.  Any nested award in the shipped
configuration is for the action `earn_badge`, absent from `POINTS_CONFIG`, so
nesting stops at depth two and this bound is never reached. -/
def FUEL : Nat := 12

/-- Exported model of `PointsService.award_points`. -/
def award_points (s : DB) (action : String) (metadata : Option String) :
    Except Err AwardResult × DB :=
  award_pointsF FUEL s action metadata

/-- Exported model of `BadgeService.check_badges`. -/
def check_badges (s : DB) (action : String) : Except Err (List String) × DB :=
  check_badgesGo (award_pointsF FUEL) s action

/-- Exported model of `BadgeService.award_badge`. -/
def award_badge (s : DB) (badge_key : String) : Except Err String × DB :=
  award_badgeGo (award_pointsF FUEL) s badge_key

/-- Model of `PointsService.award_xp_only(user, action, metadata)`: add the
XP when positive; no ledger row, no badge check, no leaderboard refresh; the
call never raises. -/
def award_xp_only (s : DB) (action : String) (_metadata : Option String) :
    XpResult × DB :=
  let xp := (XP_CONFIG.lookup action).getD 0
  let s :=
    if 0 < xp then { s with user := { s.user with xp := s.user.xp + xp } } else s
  ({ xp := xp, action := action }, s)

/-- Model of `User.update_streak` (`backend/models.py`): same-day no-op,
consecutive-day increment, otherwise reset to 1; the date is stamped in every
non-no-op branch. -/
def update_streak (u : User) (today : Int) : User :=
  if u.last_streak_date = some today then u
  else
    let u :=
      if u.last_streak_date = some (today - 1) then
        { u with streak_days := u.streak_days + 1 }
      else
        { u with streak_days := 1 }
    { u with last_streak_date := some today }

/-- Progress snapshot `{current, target, completed}` for a counted badge. -/
structure ProgressCounter where
  current : Nat
  target : Nat
  completed : Bool
deriving DecidableEq, Repr

/-- The mapping returned by `BadgeService.get_user_badge_progress`. -/
structure BadgeProgress where
  first_module : Bool
  module_explorer : ProgressCounter
  first_quiz : Bool
  quiz_master : ProgressCounter
  first_learning_path : Bool
  path_completer : Bool
  subject_master : Bool
  streak_30_days : Bool
deriving DecidableEq, Repr

/-- Model of `BadgeService.get_user_badge_progress(user_id)`: a read-only
report.  `User.query.get` yields `None` for a missing id; the count queries
keyed by the raw `user_id` still succeed, but the source then passes the
`None` user object to `_get_completed_learning_paths`, whose `user.id`
dereference raises `AttributeError` before the report is completed. -/
def get_user_badge_progress (s : DB) (user_id : Nat) : Except Err BadgeProgress :=
  match s.users.find? (fun u => u.id == user_id) with
  | none => .error .attributeErrorNoneUser
  | some user =>
    let completed_modules := completedCount s user_id
    let completed_quizzes := completedCount s user_id
    let created_paths := (s.createdPaths.lookup user_id).getD 0
    let completed_paths := get_completed_learning_paths s user
    .ok
      { first_module := decide (1 ≤ completed_modules)
        module_explorer :=
          { current := completed_modules, target := 5,
            completed := decide (5 ≤ completed_modules) }
        first_quiz := decide (1 ≤ completed_quizzes)
        quiz_master :=
          { current := completed_quizzes, target := 10,
            completed := decide (10 ≤ completed_quizzes) }
        first_learning_path := decide (1 ≤ created_paths)
        path_completer := decide (1 ≤ completed_paths)
        subject_master := has_completed_full_path s user
        streak_30_days := decide (30 ≤ user.streak_days) }

/-- Discriminator for a completed (non-raising) call. -/
def isOk {α : Type} : Except Err α → Bool
  | .ok _ => true
  | .error _ => false

/-- The raised exception of a call, when there is one. -/
def errVal {α : Type} : Except Err α → Option Err
  | .ok _ => none
  | .error e => some e

deriving instance DecidableEq for Except

/-- A user fixture for the streak claims: id 1, no points, the given streak
count and recorded date. -/
def uStreak (sd : Int) (last : Option Int) : User :=
  { id := 1, points := 0, xp := 0, streak_days := sd, last_streak_date := last }

/-! ### Concrete fixtures -/

/-- A brand-new user: zero points, zero xp, no streak. -/
def mkUser (i : Nat) : User :=
  { id := i, points := 0, xp := 0, streak_days := 0, last_streak_date := none }

/-- A fresh session whose only user is `mkUser i` with empty tables. -/
def mkDB (i : Nat) : DB :=
  { user := mkUser i, users := [mkUser i], pointsLog := [], badges := [],
    userBadges := [], leaderboard := [], completedProgress := [],
    completedPaths := [], createdPaths := [], nextBadgeId := 1 }

def dbC1 : DB := mkDB 1

def dbC2 : DB := mkDB 2

def dbC3 : DB := mkDB 3

/-- A user who has fully completed one learning path. -/
def dbPath : DB := { mkDB 4 with completedPaths := [(4, 1)] }

/-- State after one, two and three badge checks for `dbPath`. -/
def pathS1 : DB := (check_badges dbPath "rate_resource").2

def pathS2 : DB := (check_badges pathS1 "rate_resource").2

def pathS3 : DB := (check_badges pathS2 "rate_resource").2

def dbW1 : DB := mkDB 5

def dbW5 : DB := mkDB 6

def dbW6 : DB := mkDB 7

def dbC6 : DB := mkDB 8

/-- A session whose user table is empty, so that any id misses. -/
def dbC9 : DB := { mkDB 9 with users := [] }

/-- Two leaderboard entries with distinct totals, ranks not yet assigned. -/
def dbC7 : DB :=
  { mkDB 10 with leaderboard :=
      [{ user_id := 11, total_points := 10, rank := none },
       { user_id := 12, total_points := 50, rank := none }] }

/-! ### Claim C2 -/

/-- Claim C2 (code_bug evidence): `earn_badge` is absent from
`POINTS_CONFIG`, so the recursive points call inside `award_badge` raises for
every badge; the end-to-end scenario — a fresh user performing
`complete_module` — aborts with that exception instead of finishing with the
`first_module` badge and `50 + earn_badge` points. -/
theorem earn_badge_reward_misconfigured :
    POINTS_CONFIG.lookup "earn_badge" = none ∧
    errVal (award_points dbC2 "complete_module" none).1 =
      some (.unknownAction "earn_badge") ∧
    isOk (award_points dbC2 "complete_module" none).1 = false := by
  decide

/-! ### Claim C3 -/

/-- Claim C3 (code_bug evidence): the exception raised inside the
`complete_module` award (the nested `earn_badge` call) propagates without any
rollback, leaving the user's points and xp increased, a ledger row appended,
and the pending `BadgeAward` in place — the mutations of the failed call
survive it. -/
theorem failed_award_retains_mutations :
    isOk (award_points dbC3 "complete_module" none).1 = false ∧
    (award_points dbC3 "complete_module" none).2.user.points = 50 ∧
    (award_points dbC3 "complete_module" none).2.user.xp = 100 ∧
    (award_points dbC3 "complete_module" none).2.pointsLog.length = 1 ∧
    (award_points dbC3 "complete_module" none).2.userBadges.length = 1 ∧
    dbC3.user.points = 0 ∧ dbC3.user.xp = 0 ∧
    dbC3.pointsLog = [] ∧ dbC3.userBadges = [] := by
  decide

/-! ### Claim C4 -/

/-- Claim C4 (code_bug evidence): the `subject_master` milestone has no
`has_badge` guard, so for a user with a fully completed learning path the
badge check attempts the award on every call; the second and third checks
create a second `UserBadge` row for the same (user, badge) pair, violating the
at-most-once invariant. -/
theorem subject_master_awarded_twice :
    countBadgeAwards pathS2 "subject_master" = 1 ∧
    countBadgeAwards pathS3 "subject_master" = 2 := by
  decide

/-! ### Claim C5 -/

/-- Claim C5: awarding an action that is not a key of `POINTS_CONFIG` raises
the unknown-action error before touching anything: the returned state is the
input state, so points, xp, ledger and leaderboard are unchanged. -/
theorem award_points_unknown_action (s : DB) (a : String) (m : Option String)
    (h : POINTS_CONFIG.lookup a = none) :
    award_points s a m = (.error (.unknownAction a), s) := by
  show award_pointsF (11 + 1) s a m = _
  simp only [award_pointsF, h]

/-- Claim C5 witness: the spec's own example input. -/
theorem award_points_unknown_action_witness :
    award_points dbW5 "nonexistent_action" none =
      (.error (.unknownAction "nonexistent_action"), dbW5) :=
  award_points_unknown_action dbW5 "nonexistent_action" none (by decide)

/-! ### Claim C8 -/

/-- Claim C8: the streak state machine.  A call on the day already recorded is
a complete no-op; a call one day after the recorded date increments
`streak_days` by exactly one and stamps today; any other prior state —
including no recorded date at all — resets `streak_days` to 1 and stamps
today. -/
theorem update_streak_state_machine (u : User) (today : Int) :
    (u.last_streak_date = some today → update_streak u today = u) ∧
    (u.last_streak_date = some (today - 1) →
      (update_streak u today).streak_days = u.streak_days + 1 ∧
      (update_streak u today).last_streak_date = some today) ∧
    (u.last_streak_date ≠ some today → u.last_streak_date ≠ some (today - 1) →
      (update_streak u today).streak_days = 1 ∧
      (update_streak u today).last_streak_date = some today) := by
  refine ⟨fun h => ?_, fun h => ?_, fun h1 h2 => ?_⟩
  · simp [update_streak, h]
  · have hne : u.last_streak_date ≠ some today := by
      rw [h]
      intro hc
      have : today - 1 = today := by injection hc
      omega
    simp [update_streak, hne, h]
  · simp [update_streak, h1, h2]

/-- Claim C8 witness: the spec's examples — streak 4 with yesterday recorded
becomes 5; streak 4 with a three-day gap resets to 1; a same-day second call
changes nothing. -/
theorem update_streak_state_machine_witness :
    (update_streak (uStreak 4 (some 9)) 10).streak_days = 4 + 1 ∧
    (update_streak (uStreak 4 (some 7)) 10).streak_days = 1 ∧
    update_streak (uStreak 4 (some 10)) 10 = uStreak 4 (some 10) :=
  ⟨((update_streak_state_machine _ 10).2.1 (by decide)).1,
   ((update_streak_state_machine _ 10).2.2 (by decide) (by decide)).1,
   (update_streak_state_machine _ 10).1 (by decide)⟩

/-! ### Claim C9 -/

/-- Claim C9 (code_bug evidence): `get_user_badge_progress` for a missing
user id proceeds with a `None` user object and crashes with `AttributeError`
instead of reporting not-found; `get_user_rank` for the same missing id does
report not-found by returning `None`.  Both are read-only. -/
theorem progress_missing_user_crashes :
    get_user_badge_progress dbC9 1 = .error .attributeErrorNoneUser ∧
    get_user_rank dbC9 1 = none := by
  decide

/-! ### Claim C10 -/

/-- Claim C10 counterexample: from a prior state whose `last_streak_date` is
already today while `streak_days` is 0, `update_streak` is a no-op, so the
postcondition `streak_days ≥ 1` does not hold for every prior state. -/
theorem update_streak_zero_noop :
    ¬ (1 ≤ (update_streak (uStreak 0 (some 5)) 5).streak_days) := by
  decide

/-- Claim C10 amended: after `update_streak`, `last_streak_date` is today and
`streak_days` is at least 1, provided the prior state has non-negative
`streak_days` and is not a same-day no-op state with `streak_days = 0`
(states `update_streak` itself never produces); in particular this holds from
the initial state (`streak_days = 0`, no date). -/
theorem update_streak_postcondition (u : User) (today : Int)
    (h0 : 0 ≤ u.streak_days)
    (h : u.last_streak_date ≠ some today ∨ 1 ≤ u.streak_days) :
    1 ≤ (update_streak u today).streak_days ∧
    (update_streak u today).last_streak_date = some today := by
  by_cases hd : u.last_streak_date = some today
  · rcases h with h | h
    · exact absurd hd h
    · simp [update_streak, hd, h]
  · by_cases hy : u.last_streak_date = some (today - 1)
    · refine ⟨?_, ?_⟩
      · simp only [update_streak, if_neg hd, if_pos hy]
        omega
      · simp [update_streak, hd, hy]
    · simp [update_streak, hd, hy]

/-- Claim C10 witness: the initial state (zero streak, no recorded date)
satisfies the amended postcondition. -/
theorem update_streak_postcondition_witness :
    1 ≤ (update_streak (mkUser 1) 0).streak_days ∧
    (update_streak (mkUser 1) 0).last_streak_date = some 0 :=
  update_streak_postcondition (mkUser 1) 0 (by decide) (Or.inl (by decide))


/-! ### The badge-award path always raises

With the shipped `POINTS_CONFIG`, the recursive reward call of `award_badge`
is always for the action `earn_badge`, which has no point entry; therefore
every badge award aborts, and a badge check that returns normally has awarded
nothing and left the state untouched. -/

/-- A recursive award for `earn_badge` raises at once: out of fuel it is the
recursion-limit error, otherwise the unknown-action error, since `earn_badge`
is not a key of `POINTS_CONFIG`. -/
theorem award_pointsF_earn_badge (fuel : Nat) (s : DB) (m : Option String) :
    isOk (award_pointsF fuel s "earn_badge" m).1 = false := by
  cases fuel with
  | zero => rfl
  | succ n => rfl

/-- Every call to the badge-award helper raises: either the badge rule is
undefined, or the nested `earn_badge` points call raises. -/
theorem award_badgeGo_fails (fuel : Nat) (s : DB) (key : String) :
    isOk (award_badgeGo (award_pointsF fuel) s key).1 = false := by
  unfold award_badgeGo
  split
  · rfl
  · dsimp only
    split
    · rfl
    · next v s2 heq =>
      have h := congrArg (fun p => isOk p.1) heq
      simp only [award_pointsF_earn_badge] at h
      simp [isOk] at h

/-- A milestone step that returns normally did not attempt an award: its
condition was false and it passed its input through unchanged. -/
theorem milestoneAward_ok (fuel : Nat) (key : String) (cond : DB → Bool)
    (st : Except Err (List String) × DB) (acc : List String) (s' : DB)
    (h : milestoneAward (award_pointsF fuel) key cond st = (.ok acc, s')) :
    st = (.ok acc, s') := by
  rcases st with ⟨r, s⟩
  cases r with
  | error e => simp [milestoneAward] at h
  | ok acc0 =>
    by_cases hc : cond s
    · have hfail := award_badgeGo_fails fuel s key
      rcases hb : award_badgeGo (award_pointsF fuel) s key with ⟨rb, sb⟩
      rw [hb] at hfail
      cases rb with
      | ok v => simp [isOk] at hfail
      | error e =>
        simp [milestoneAward, hc, hb] at h
    · simpa [milestoneAward, hc] using h

/-- A milestone sweep that returns normally awarded nothing and left the
state untouched. -/
theorem check_milestone_badgesGo_ok (fuel : Nat) (s : DB) (acc : List String) (s' : DB)
    (h : check_milestone_badgesGo (award_pointsF fuel) s = (.ok acc, s')) :
    acc = [] ∧ s' = s := by
  simp only [check_milestone_badgesGo] at h
  have h4 := milestoneAward_ok fuel _ _ _ _ _ h
  have h3 := milestoneAward_ok fuel _ _ _ _ _ h4
  have h2 := milestoneAward_ok fuel _ _ _ _ _ h3
  have h1 := milestoneAward_ok fuel _ _ _ _ _ h2
  have h0 := milestoneAward_ok fuel _ _ _ _ _ h1
  simp only [Prod.mk.injEq, Except.ok.injEq] at h0
  exact ⟨h0.1.symm, h0.2.symm⟩

/-- A badge check that returns normally returns the empty list and leaves
the state untouched. -/
theorem check_badgesGo_ok (fuel : Nat) (s : DB) (a : String) (l : List String) (s' : DB)
    (h : check_badgesGo (award_pointsF fuel) s a = (.ok l, s')) :
    l = [] ∧ s' = s := by
  simp only [check_badgesGo] at h
  split at h
  · simp at h
  · next acc s1 heq =>
    split at h
    · simp at h
    · next ms s2 heqm =>
      obtain ⟨hms, hs2⟩ := check_milestone_badgesGo_ok fuel s1 ms s2 heqm
      simp only [Prod.mk.injEq, Except.ok.injEq] at h
      obtain ⟨hl, hs'⟩ := h
      have hacc : acc = [] ∧ s1 = s := by
        split at heq
        next bk hbk =>
          split at heq
          · simp only [Prod.mk.injEq, Except.ok.injEq] at heq
            exact ⟨heq.1.symm, heq.2.symm⟩
          · split at heq
            · simp at heq
            next v sb heqb =>
              have hfail := award_badgeGo_fails fuel s bk
              rw [heqb] at hfail
              simp [isOk] at hfail
        next hnone =>
          simp only [Prod.mk.injEq, Except.ok.injEq] at heq
          exact ⟨heq.1.symm, heq.2.symm⟩
      subst hs2
      constructor
      · rw [← hl, hacc.1, hms]
        rfl
      · rw [← hs', hacc.2]


/-- A points award that returns normally awarded no badge: the result carries
the configured point and XP values with an empty badge list, and the final
state is the stat/ledger mutation followed by the leaderboard refresh. -/
theorem award_pointsF_ok_eq (fuel : Nat) (s : DB) (a : String) (m : Option String)
    (p : Int) (hp : POINTS_CONFIG.lookup a = some p)
    (hok : isOk (award_pointsF (fuel + 1) s a m).1 = true) :
    award_pointsF (fuel + 1) s a m =
      (.ok { points := p, xp := (XP_CONFIG.lookup a).getD 0, action := a,
             badges_awarded := [] },
       update_user_rank (midState s a m p)) := by
  simp only [award_pointsF, hp] at hok ⊢
  rcases hcb : check_badgesGo (award_pointsF fuel) (midState s a m p) a with ⟨rb, sb⟩
  simp only [hcb] at hok
  cases rb with
  | error e => simp [isOk] at hok
  | ok l =>
    obtain ⟨hl, hsb⟩ := check_badgesGo_ok fuel _ a l sb hcb
    rw [hl, hsb]


/-- Every value of the XP table is positive. -/
theorem xp_lookup_pos (a : String) (v : Int) (h : XP_CONFIG.lookup a = some v) :
    0 < v := by
  simp only [XP_CONFIG, List.lookup] at h
  repeat' split at h
  all_goals simp_all
  all_goals omega

/-- The XP increment of an action is zero exactly when the table misses. -/
theorem xp_getD_pos_or_zero (a : String) :
    0 < (XP_CONFIG.lookup a).getD 0 ∨ (XP_CONFIG.lookup a).getD 0 = 0 := by
  cases hl : XP_CONFIG.lookup a with
  | none => exact Or.inr rfl
  | some v => exact Or.inl (by simpa using xp_lookup_pos a v hl)

theorem midState_user_points (s : DB) (a : String) (m : Option String) (p : Int) :
    (midState s a m p).user.points = s.user.points + p := by
  simp only [midState]
  split <;> rfl

theorem midState_user_xp (s : DB) (a : String) (m : Option String) (p : Int) :
    (midState s a m p).user.xp = s.user.xp + (XP_CONFIG.lookup a).getD 0 := by
  simp only [midState]
  split
  · rfl
  · next hxp =>
    rcases xp_getD_pos_or_zero a with hpos | hz
    · exact absurd hpos hxp
    · rw [hz]
      simp

theorem midState_pointsLog (s : DB) (a : String) (m : Option String) (p : Int) :
    (midState s a m p).pointsLog = s.pointsLog ++
      [{ user_id := s.user.id, points_change := p, reason := reasonFor a m }] := by
  simp only [midState]
  split <;> rfl

theorem midState_leaderboard (s : DB) (a : String) (m : Option String) (p : Int) :
    (midState s a m p).leaderboard = s.leaderboard := by
  simp only [midState]

theorem midState_user_id (s : DB) (a : String) (m : Option String) (p : Int) :
    (midState s a m p).user.id = s.user.id := by
  simp only [midState]
  split <;> rfl

/-- Claim C1 amended: for a known action, whenever `award_points` completes
without raising, it returns the configured point and XP values with an empty
badge list, increases the user's points by exactly the point value and the xp
by exactly the XP value (zero when the XP table misses), and appends exactly
one ledger row with that point delta and reason action (or action: metadata).
Calls that would newly award a badge never complete: the nested `earn_badge`
reward raises. -/
theorem award_points_success_deltas (s : DB) (a : String) (m : Option String)
    (p : Int) (hp : POINTS_CONFIG.lookup a = some p)
    (hok : isOk (award_points s a m).1 = true) :
    (award_points s a m).1 =
      .ok { points := p, xp := (XP_CONFIG.lookup a).getD 0, action := a,
            badges_awarded := [] } ∧
    (award_points s a m).2.user.points = s.user.points + p ∧
    (award_points s a m).2.user.xp = s.user.xp + (XP_CONFIG.lookup a).getD 0 ∧
    (award_points s a m).2.pointsLog = s.pointsLog ++
      [{ user_id := s.user.id, points_change := p, reason := reasonFor a m }] := by
  have h12 : award_points s a m = award_pointsF (11 + 1) s a m := rfl
  rw [h12] at hok ⊢
  have heq := award_pointsF_ok_eq 11 s a m p hp hok
  rw [heq]
  exact ⟨rfl, midState_user_points s a m p, midState_user_xp s a m p,
    midState_pointsLog s a m p⟩

/-- Claim C1 counterexample: `complete_module` is a known action with point
value 50, yet `award_points` on a fresh user raises (the triggered
`first_module` badge award recursively requests the unconfigured
`earn_badge` action), so the call does not complete with the stated effects. -/
theorem known_action_award_raises :
    POINTS_CONFIG.lookup "complete_module" = some 50 ∧
    isOk (award_points dbC1 "complete_module" none).1 = false ∧
    errVal (award_points dbC1 "complete_module" none).1 =
      some (.unknownAction "earn_badge") := by
  decide

/-- Claim C1 witness: a fresh user awarded `create_post` (15 points, no XP
entry, no badge trigger) completes with exactly the stated deltas. -/
theorem award_points_success_deltas_witness :
    (award_points dbW1 "create_post" none).1 =
      .ok { points := 15, xp := (XP_CONFIG.lookup "create_post").getD 0,
            action := "create_post", badges_awarded := [] } ∧
    (award_points dbW1 "create_post" none).2.user.points = dbW1.user.points + 15 ∧
    (award_points dbW1 "create_post" none).2.user.xp =
      dbW1.user.xp + (XP_CONFIG.lookup "create_post").getD 0 ∧
    (award_points dbW1 "create_post" none).2.pointsLog = dbW1.pointsLog ++
      [{ user_id := dbW1.user.id, points_change := 15,
         reason := reasonFor "create_post" none }] :=
  award_points_success_deltas dbW1 "create_post" none 15 (by decide) (by decide)


/-- Rank assignment changes only the `rank` field: every output entry matches
an input entry on user id and total points. -/
theorem assignRanks_mem {x : Leaderboard} :
    ∀ (n : Nat) (l : List Leaderboard), x ∈ assignRanks n l →
      ∃ y ∈ l, x.user_id = y.user_id ∧ x.total_points = y.total_points := by
  intro n l
  induction l generalizing n with
  | nil => simp [assignRanks]
  | cons e es ih =>
    intro h
    rcases List.mem_cons.mp h with h | h
    · exact ⟨e, List.mem_cons_self e es, by rw [h], by rw [h]⟩
    · obtain ⟨y, hy, h1, h2⟩ := ih (n + 1) h
      exact ⟨y, List.mem_cons_of_mem e hy, h1, h2⟩

/-- Rank assignment keeps every input entry, up to its `rank` field. -/
theorem mem_assignRanks {y : Leaderboard} :
    ∀ (n : Nat) (l : List Leaderboard), y ∈ l →
      ∃ x ∈ assignRanks n l, x.user_id = y.user_id ∧ x.total_points = y.total_points := by
  intro n l
  induction l generalizing n with
  | nil => simp
  | cons e es ih =>
    intro h
    rcases List.mem_cons.mp h with h | h
    · exact ⟨{ e with rank := some (n : Int) },
        List.mem_cons_self _ _, by rw [h], by rw [h]⟩
    · obtain ⟨x, hx, h1, h2⟩ := ih (n + 1) h
      exact ⟨x, List.mem_cons_of_mem _ hx, h1, h2⟩

/-- Overwriting the first entry of a user id, on a table whose user ids are
unique and which does contain that user id, makes its total points the new
value, uniquely. -/
theorem setEntryPoints_spec :
    ∀ (l : List Leaderboard) (uid : Nat) (p : Int),
      (l.map Leaderboard.user_id).Nodup → (∃ e ∈ l, e.user_id = uid) →
      (∃ x ∈ setEntryPoints l uid p, x.user_id = uid ∧ x.total_points = p) ∧
      (∀ x ∈ setEntryPoints l uid p, x.user_id = uid → x.total_points = p) := by
  intro l
  induction l with
  | nil => intro uid p _ hex; simp at hex
  | cons e es ih =>
    intro uid p hnd hex
    rw [List.map_cons, List.nodup_cons] at hnd
    by_cases he : e.user_id = uid
    · have hbeq : (e.user_id == uid) = true := by simp [he]
      refine ⟨⟨{ e with total_points := p }, ?_, he, rfl⟩, ?_⟩
      · simp [setEntryPoints, hbeq]
      · intro x hx hxid
        simp only [setEntryPoints, hbeq, if_pos] at hx
        rcases List.mem_cons.mp hx with h | h
        · rw [h]
        · exfalso
          apply hnd.1
          rw [he, ← hxid]
          exact List.mem_map_of_mem Leaderboard.user_id h
    · have hbeq : (e.user_id == uid) = false := by simp [he]
      have hex' : ∃ e0 ∈ es, e0.user_id = uid := by
        rcases hex with ⟨e0, h0, hid⟩
        rcases List.mem_cons.mp h0 with h | h
        · exact absurd (h ▸ hid) he
        · exact ⟨e0, h, hid⟩
      obtain ⟨hexr, hallr⟩ := ih uid p hnd.2 hex'
      constructor
      · obtain ⟨x, hx, h1, h2⟩ := hexr
        exact ⟨x, by simp [setEntryPoints, hbeq, List.mem_cons, hx], h1, h2⟩
      · intro x hx hxid
        simp only [setEntryPoints, hbeq, if_neg] at hx
        rcases List.mem_cons.mp hx with h | h
        · exact absurd (h ▸ hxid) he
        · exact hallr x h hxid

/-- Transfer of the mirror property through the full rank recompute. -/
theorem ranked_transfer (l : List Leaderboard) (uid : Nat) (p : Int)
    (hex : ∃ x ∈ l, x.user_id = uid ∧ x.total_points = p)
    (hall : ∀ x ∈ l, x.user_id = uid → x.total_points = p) :
    (∃ x ∈ assignRanks 1 (List.insertionSort pointsGe l),
       x.user_id = uid ∧ x.total_points = p) ∧
    (∀ x ∈ assignRanks 1 (List.insertionSort pointsGe l),
       x.user_id = uid → x.total_points = p) := by
  constructor
  · obtain ⟨x, hx, h1, h2⟩ := hex
    have hx' : x ∈ List.insertionSort pointsGe l :=
      (List.perm_insertionSort pointsGe l).mem_iff.mpr hx
    obtain ⟨z, hz, hz1, hz2⟩ := mem_assignRanks 1 (List.insertionSort pointsGe l) hx'
    exact ⟨z, hz, hz1.trans h1, hz2.trans h2⟩
  · intro x hx hxid
    obtain ⟨y, hy, h1, h2⟩ := assignRanks_mem 1 (List.insertionSort pointsGe l) hx
    have hy' : y ∈ l := (List.perm_insertionSort pointsGe l).mem_iff.mp hy
    rw [h2]
    exact hall y hy' (h1 ▸ hxid)

/-- After `update_user_rank`, the acting user has a leaderboard entry and
every entry of that user carries exactly the user's current points. -/
theorem update_user_rank_mirror (t : DB)
    (h : (t.leaderboard.map Leaderboard.user_id).Nodup) :
    (∃ x ∈ (update_user_rank t).leaderboard,
       x.user_id = t.user.id ∧ x.total_points = t.user.points) ∧
    (∀ x ∈ (update_user_rank t).leaderboard,
       x.user_id = t.user.id → x.total_points = t.user.points) := by
  cases hf : findEntry t.leaderboard t.user.id with
  | none =>
    have hnone := List.find?_eq_none.mp hf
    have hlb : (update_user_rank t).leaderboard =
        assignRanks 1 (List.insertionSort pointsGe (t.leaderboard ++
          [{ user_id := t.user.id, total_points := t.user.points, rank := none }])) := by
      simp [update_user_rank, update_all_ranks, hf]
    rw [hlb]
    apply ranked_transfer
    · refine ⟨{ user_id := t.user.id, total_points := t.user.points, rank := none }, ?_, rfl, rfl⟩
      simp
    · intro x hx hxid
      rcases List.mem_append.mp hx with hmem | hmem
      · exact absurd (by simp [hxid]) (hnone x hmem)
      · simp at hmem
        rw [hmem]
    
  | some e =>
    have hmem := List.mem_of_find?_eq_some hf
    have hpred : e.user_id = t.user.id := by
      have := List.find?_some hf
      simpa using this
    have hlb : (update_user_rank t).leaderboard =
        assignRanks 1 (List.insertionSort pointsGe
          (setEntryPoints t.leaderboard t.user.id t.user.points)) := by
      simp [update_user_rank, update_all_ranks, hf]
    rw [hlb]
    obtain ⟨hex, hall⟩ := setEntryPoints_spec t.leaderboard t.user.id t.user.points h
      ⟨e, hmem, hpred⟩
    exact ranked_transfer _ _ _ hex hall


/-- Claim C6 counterexample: `award_xp_only` is a Points Service call that
always completes, yet for a fresh user it creates no leaderboard entry, so
"after every completed Points Service call the user's LeaderboardEntry
exists" fails. -/
theorem xp_only_call_creates_no_entry :
    (award_xp_only dbC6 "pass_quiz" none).1 = { xp := 150, action := "pass_quiz" } ∧
    findEntry (award_xp_only dbC6 "pass_quiz" none).2.leaderboard dbC6.user.id = none := by
  decide

/-- Claim C6 amended: after every completed `award_points` call on a
leaderboard table with unique user ids, the acting user's leaderboard entry
exists and every entry of that user mirrors the user's current points; the
other Points Service call, `award_xp_only`, touches neither the leaderboard
nor the points total (so it preserves the equality but does not establish
existence). -/
theorem leaderboard_mirrors_user_points :
    (∀ (s : DB) (a : String) (m : Option String) (p : Int),
      (s.leaderboard.map Leaderboard.user_id).Nodup →
      POINTS_CONFIG.lookup a = some p →
      isOk (award_points s a m).1 = true →
      (∃ x ∈ (award_points s a m).2.leaderboard,
         x.user_id = s.user.id ∧
         x.total_points = (award_points s a m).2.user.points) ∧
      (∀ x ∈ (award_points s a m).2.leaderboard,
         x.user_id = s.user.id →
         x.total_points = (award_points s a m).2.user.points)) ∧
    (∀ (s : DB) (a : String) (m : Option String),
      (award_xp_only s a m).2.leaderboard = s.leaderboard ∧
      (award_xp_only s a m).2.user.points = s.user.points) := by
  constructor
  · intro s a m p hnd hp hok
    have h12 : award_points s a m = award_pointsF (11 + 1) s a m := rfl
    rw [h12] at hok ⊢
    have heq := award_pointsF_ok_eq 11 s a m p hp hok
    rw [heq]
    have hndm : ((midState s a m p).leaderboard.map Leaderboard.user_id).Nodup := by
      rw [midState_leaderboard]
      exact hnd
    have hm := update_user_rank_mirror (midState s a m p) hndm
    have hid : (midState s a m p).user.id = s.user.id := midState_user_id s a m p
    rw [hid] at hm
    exact hm
  · intro s a m
    by_cases hxp : 0 < (XP_CONFIG.lookup a).getD 0 <;> simp [award_xp_only, hxp]

/-- Claim C6 witness: a fresh user awarded `rate_resource` (5 points) ends
with a leaderboard entry mirroring 5 points. -/
theorem leaderboard_mirrors_user_points_witness :
    (∃ x ∈ (award_points dbW6 "rate_resource" none).2.leaderboard,
       x.user_id = dbW6.user.id ∧
       x.total_points = (award_points dbW6 "rate_resource" none).2.user.points) ∧
    (∀ x ∈ (award_points dbW6 "rate_resource" none).2.leaderboard,
       x.user_id = dbW6.user.id →
       x.total_points = (award_points dbW6 "rate_resource" none).2.user.points) :=
  leaderboard_mirrors_user_points.1 dbW6 "rate_resource" none 5
    (by decide) (by decide) (by decide)


theorem assignRanks_length : ∀ (n : Nat) (l : List Leaderboard),
    (assignRanks n l).length = l.length := by
  intro n l
  induction l generalizing n with
  | nil => rfl
  | cons e es ih => simp [assignRanks, ih]

/-- The contiguous rank column `some n, some (n+1), ...` of a given length. -/
def rankList (n : Nat) : Nat → List (Option Int)
  | 0 => []
  | len + 1 => some (n : Int) :: rankList (n + 1) len

theorem rankList_get? : ∀ (n len k : Nat), k < len →
    (rankList n len).get? k = some (some ((n + k : Nat) : Int)) := by
  intro n len
  induction len generalizing n with
  | zero => intro k hk; omega
  | succ len ih =>
    intro k hk
    cases k with
    | zero => simp [rankList]
    | succ k =>
      have := ih (n + 1) k (by omega)
      simpa [rankList, Nat.add_assoc, Nat.add_comm 1 k] using this

theorem rankList_mem : ∀ (n len : Nat) (x : Option Int),
    x ∈ rankList n len ↔ ∃ k, k < len ∧ x = some ((n + k : Nat) : Int) := by
  intro n len
  induction len generalizing n with
  | zero => intro x; simp [rankList]
  | succ len ih =>
    intro x
    rw [rankList, List.mem_cons, ih (n + 1)]
    constructor
    · rintro (hx | ⟨k, hk, hx⟩)
      · exact ⟨0, by omega, by simpa using hx⟩
      · exact ⟨k + 1, by omega, by rw [hx]; congr 1; omega⟩
    · rintro ⟨k, hk, hx⟩
      cases k with
      | zero => left; simpa using hx
      | succ k => right; exact ⟨k, by omega, by rw [hx]; congr 1; omega⟩

/-- The rank column holds no duplicates. -/
theorem rankList_nodup : ∀ (n len : Nat), (rankList n len).Nodup := by
  intro n len
  induction len generalizing n with
  | zero => exact List.nodup_nil
  | succ len ih =>
    refine List.Nodup.cons ?_ (ih (n + 1))
    intro hmem
    obtain ⟨k, _, hk⟩ := (rankList_mem (n + 1) len _).mp hmem
    have : (n : Int) = ((n + 1 + k : Nat) : Int) := Option.some.inj hk
    omega

/-- The ranks written by `assignRanks n` are `n, n+1, ...` in list order. -/
theorem assignRanks_map_rank : ∀ (n : Nat) (l : List Leaderboard),
    (assignRanks n l).map Leaderboard.rank = rankList n l.length := by
  intro n l
  induction l generalizing n with
  | nil => rfl
  | cons e es ih => simp [assignRanks, rankList, ih]

/-- Rank assignment preserves the descending-points order. -/
theorem assignRanks_pairwise : ∀ (n : Nat) (l : List Leaderboard),
    List.Pairwise pointsGe l → List.Pairwise pointsGe (assignRanks n l) := by
  intro n l
  induction l generalizing n with
  | nil => intro _; exact List.Pairwise.nil
  | cons e es ih =>
    intro hp
    rw [List.pairwise_cons] at hp
    refine List.Pairwise.cons ?_ (ih (n + 1) hp.2)
    intro b hb
    obtain ⟨y, hy, _, h2⟩ := assignRanks_mem (n + 1) es hb
    show b.total_points ≤ e.total_points
    rw [h2]
    exact hp.1 y hy

/-- Claim C7: after `update_all_ranks` over any table of N entries, the rank
column read in storage order is exactly `some 1, ..., some N` — a contiguous,
duplicate-free sequence; the entries are in descending total-points order; an
entry with strictly larger total points sits strictly earlier (hence receives
a strictly smaller rank); and an entry holding rank 1 has the maximum total
points. -/
theorem update_all_ranks_spec (s : DB) :
    (update_all_ranks s).leaderboard.length = s.leaderboard.length ∧
    (update_all_ranks s).leaderboard.map Leaderboard.rank =
      rankList 1 s.leaderboard.length ∧
    ((update_all_ranks s).leaderboard.map Leaderboard.rank).Nodup ∧
    List.Pairwise pointsGe (update_all_ranks s).leaderboard ∧
    (∀ (i j : Nat) (hi : i < (update_all_ranks s).leaderboard.length)
        (hj : j < (update_all_ranks s).leaderboard.length),
      ((update_all_ranks s).leaderboard.get ⟨j, hj⟩).total_points <
        ((update_all_ranks s).leaderboard.get ⟨i, hi⟩).total_points → i < j) ∧
    (∀ e ∈ (update_all_ranks s).leaderboard, e.rank = some 1 →
      ∀ x ∈ (update_all_ranks s).leaderboard, x.total_points ≤ e.total_points) := by
  have hsorted : List.Pairwise pointsGe (List.insertionSort pointsGe s.leaderboard) :=
    List.sorted_insertionSort pointsGe s.leaderboard
  have hlen : (update_all_ranks s).leaderboard.length = s.leaderboard.length := by
    simp only [update_all_ranks]
    rw [assignRanks_length]
    exact (List.perm_insertionSort pointsGe s.leaderboard).length_eq
  have hmap : (update_all_ranks s).leaderboard.map Leaderboard.rank =
      rankList 1 s.leaderboard.length := by
    simp only [update_all_ranks]
    rw [assignRanks_map_rank]
    rw [(List.perm_insertionSort pointsGe s.leaderboard).length_eq]
  have hpair : List.Pairwise pointsGe (update_all_ranks s).leaderboard := by
    simp only [update_all_ranks]
    exact assignRanks_pairwise 1 _ hsorted
  have hidx : ∀ (i j : Nat) (hi : i < (update_all_ranks s).leaderboard.length)
      (hj : j < (update_all_ranks s).leaderboard.length),
      ((update_all_ranks s).leaderboard.get ⟨j, hj⟩).total_points <
        ((update_all_ranks s).leaderboard.get ⟨i, hi⟩).total_points → i < j := by
    intro i j hi hj hlt
    by_contra hij
    have hsplit : j < i ∨ i = j := by omega
    rcases hsplit with hji | hji
    · have hrel := List.pairwise_iff_get.mp hpair ⟨j, hj⟩ ⟨i, hi⟩ hji
      simp only [pointsGe] at hrel
      omega
    · subst hji
      exact lt_irrefl _ hlt
  refine ⟨hlen, hmap, by rw [hmap]; exact rankList_nodup 1 _, hpair, hidx, ?_⟩
  intro e he hr x hx
  obtain ⟨⟨k, hk⟩, hke⟩ := List.mem_iff_get.mp he
  obtain ⟨⟨jx, hjx⟩, hjxe⟩ := List.mem_iff_get.mp hx
  have hkN : k < s.leaderboard.length := by rw [← hlen]; exact hk
  have hq := congrArg (fun t => t.get? k) hmap
  simp only [List.get?_map, List.get?_eq_get hk, Option.map_some, Option.map_some', hke,
    rankList_get? 1 _ k hkN] at hq
  rw [hr] at hq
  have hk0 : k = 0 := by
    have h2 : (1 : Int) = ((1 + k : Nat) : Int) := Option.some.inj (Option.some.inj hq)
    omega
  subst hk0
  rcases Nat.eq_zero_or_pos jx with hj0 | hjpos
  · subst hj0
    have hxe : x = e := by rw [← hjxe, ← hke]
    rw [hxe]
  · have hrel := List.pairwise_iff_get.mp hpair ⟨0, hk⟩ ⟨jx, hjx⟩ hjpos
    rw [hke, hjxe] at hrel
    exact hrel


/-- Claim C7 witness: two entries with totals 10 and 50 and no ranks; after
the recompute the ranks are exactly `some 1, some 2` and the entry with the
strictly smaller total sits strictly later. -/
theorem update_all_ranks_spec_witness :
    (update_all_ranks dbC7).leaderboard.map Leaderboard.rank = [some 1, some 2] ∧
    (0 : Nat) < 1 := by
  have h := update_all_ranks_spec dbC7
  refine ⟨?_, ?_⟩
  · rw [h.2.1]
    decide
  · exact h.2.2.2.2.1 0 1 (by decide) (by decide) (by decide)

end Gamification
